import Mathlib

/-!
Verification of the RT-Thread IPC core (ipc.c) and the thread timeout path
(thread.c) against its natural-language specification.

The C source is shallowly embedded: every kernel object becomes a Lean
structure, every operation a pure function on that structure (stateful code
is explicit state passing).  Machine integers that may go negative in the
source (semaphore and mutex counters, declared signed in the data model) are
embedded as Int; unsigned quantities (priorities, offsets, counts, event
bit sets) as Nat.  The intrusive doubly linked wait queues become Lean
lists ordered from head (next of the sentinel) to tail.
-/

namespace RTT

/-- Modelled from the spec: error codes are returned as negative integers
(OK, ERROR, TIMEOUT, FULL, EMPTY); the numeric constants live in the header
rtdef.h, which is not part of the provided sources. -/
def RT_EOK : Int := 0

/-- Modelled from the spec: generic error code (header rtdef.h missing). -/
def RT_ERROR : Int := 1

/-- Modelled from the spec: timeout error code (header rtdef.h missing). -/
def RT_ETIMEOUT : Int := 2

/-- Modelled from the spec: resource-full error code (header missing). -/
def RT_EFULL : Int := 3

/-- Modelled from the spec: wait queues are FIFO or PRIO ordered; the flag
constants live in the missing header. -/
def RT_IPC_FLAG_FIFO : Nat := 0

/-- Modelled from the spec: priority ordering flag for wait queues. -/
def RT_IPC_FLAG_PRIO : Nat := 1

/-- Modelled from the spec: event receive option, AND mode bit. -/
def RT_EVENT_FLAG_AND : Nat := 1

/-- Modelled from the spec: event receive option, OR mode bit. -/
def RT_EVENT_FLAG_OR : Nat := 2

/-- Modelled from the spec: event receive option, CLEAR bit. -/
def RT_EVENT_FLAG_CLEAR : Nat := 4

/-- Modelled from the spec: thread states INIT, READY, SUSPEND, CLOSE. -/
def RT_THREAD_INIT : Nat := 0

/-- Modelled from the spec: thread state READY. -/
def RT_THREAD_READY : Nat := 1

/-- Modelled from the spec: thread state SUSPEND. -/
def RT_THREAD_SUSPEND : Nat := 2

/-- Modelled from the spec: thread state CLOSE. -/
def RT_THREAD_CLOSE : Nat := 3

/-- The fields of struct rt_thread used by the IPC core: identity (tid),
priorities, last error, scheduling state and the event-wait parameters.
Stack, timer internals and scheduler bitmap coordinates are owned by the
out-of-scope collaborators and are not needed by any claim. -/
structure RtThread where
  tid : Nat
  init_priority : Nat
  current_priority : Nat
  error : Int
  stat : Nat
  event_set : Nat
  event_info : Nat
deriving DecidableEq

/-- The position the PRIO search loop in rt_ipc_object_suspend computes: the
index of the first queued thread whose current_priority is numerically
greater than the new waiter's (the loop breaks there), or the queue length
when no such entry exists. -/
def prioSearchPos (q : List RtThread) (t : RtThread) : Nat :=
  match q with
  | [] => 0
  | s :: rest =>
    if t.current_priority < s.current_priority then 0
    else prioSearchPos rest t + 1

/-- The wait-queue insertion rt_ipc_object_suspend actually performs.  The
FIFO branch calls rt_list_insert_before on the sentinel head, appending at
the tail.  The PRIO branch first runs the search loop (prioSearchPos) but
then issues the same rt_list_insert_before on the sentinel head, so it also
appends at the tail and the found position is discarded. -/
def rt_ipc_object_suspend_queue (flag : Nat) (q : List RtThread) (t : RtThread) :
    List RtThread :=
  if flag = RT_IPC_FLAG_PRIO then
    q ++ [t]
  else
    q ++ [t]

/-- The insertion the spec describes for PRIO queues: walk from the head and
insert immediately before the first entry whose current_priority is
numerically greater than the new waiter's.  Written from the claim, to be
compared with rt_ipc_object_suspend_queue. -/
def prioClaimInsert : List RtThread → RtThread → List RtThread
  | [], t => [t]
  | s :: rest, t =>
    if t.current_priority < s.current_priority then t :: s :: rest
    else s :: prioClaimInsert rest t

/-- Struct rt_semaphore: an IPC parent (flag, wait queue of thread ids, wait
count) plus the signed counter value. -/
structure RtSemaphore where
  flag : Nat
  suspend_thread : List Nat
  suspend_thread_count : Nat
  value : Int
deriving DecidableEq

/-- rt_sem_init: empty wait queue, zero wait count, caller-given value. -/
def rt_sem_init (value : Int) (flag : Nat) : RtSemaphore :=
  { flag := flag, suspend_thread := [], suspend_thread_count := 0, value := value }

/-- Outcome of rt_sem_take up to the point where it either returns to the
caller or has fully suspended the calling thread and is about to call
rt_schedule.  The blocked form records the armed flag of the one-shot
thread timer (started only for a strictly positive waiting time). -/
inductive SemTakeRes where
  | returned (e : Int) (sem : RtSemaphore) (t : RtThread)
  | blocked (sem : RtSemaphore) (t : RtThread) (armed : Bool)
deriving DecidableEq

/-- rt_sem_take: value positive means decrement and return OK; otherwise a
zero waiting time returns TIMEOUT at once; otherwise the value is still
decremented, the caller's error is reset, the caller is suspended and put
at the tail of the wait queue (rt_ipc_object_suspend appends for both FIFO
and PRIO flags, see rt_ipc_object_suspend_queue) and the thread timer is
armed when the waiting time is positive. -/
def rt_sem_take (sem : RtSemaphore) (t : RtThread) (time : Int) : SemTakeRes :=
  if sem.value > 0 then
    .returned RT_EOK { sem with value := sem.value - 1 } t
  else if time = 0 then
    .returned (-RT_ETIMEOUT) sem t
  else
    let t1 := { t with error := RT_EOK, stat := RT_THREAD_SUSPEND }
    let sem1 := { sem with
      value := sem.value - 1,
      suspend_thread := sem.suspend_thread ++ [t1.tid],
      suspend_thread_count := sem.suspend_thread_count + 1 }
    .blocked sem1 t1 (decide (time > 0))

/-- rt_sem_trytake is rt_sem_take with a zero waiting time. -/
def rt_sem_trytake (sem : RtSemaphore) (t : RtThread) : SemTakeRes :=
  rt_sem_take sem t 0

/-- rt_ipc_object_decrease: decrement the suspended-thread count of the
object after a take observed a wake-up that did not deliver the resource. -/
def rt_ipc_object_decrease (sem : RtSemaphore) : RtSemaphore :=
  { sem with suspend_thread_count := sem.suspend_thread_count - 1 }

/-- rt_thread_timeout (thread.c): the expiry callback of the per-thread
timer.  It stamps the thread error with TIMEOUT, unlinks the thread node
from whatever wait queue holds it (here: the semaphore's), and readies the
thread.  It does not touch the object's suspended-thread count. -/
def rt_thread_timeout (sem : RtSemaphore) (t : RtThread) : RtSemaphore × RtThread :=
  ({ sem with suspend_thread := sem.suspend_thread.eraseP (fun x => x == t.tid) },
   { t with error := -RT_ETIMEOUT, stat := RT_THREAD_READY })

/-- The tail of rt_sem_take after rt_schedule returns control to the woken
thread: a non-OK thread error decrements the suspended count and is
returned; otherwise the take succeeded. -/
def rt_sem_take_resume (sem : RtSemaphore) (t : RtThread) : Int × RtSemaphore :=
  if t.error ≠ RT_EOK then (t.error, rt_ipc_object_decrease sem)
  else (RT_EOK, sem)

/-- The semaphore-timeout scenario: a take that blocks, then the thread
timer fires with no intervening release, then the woken take returns.
Yields the returned error, the final semaphore, the final thread and
whether the timer had been armed. -/
def semTimeoutScenario (sem : RtSemaphore) (t : RtThread) (time : Int) :
    Int × RtSemaphore × RtThread × Bool :=
  match rt_sem_take sem t time with
  | .blocked sem1 t1 armed =>
    let p := rt_thread_timeout sem1 t1
    let q := rt_sem_take_resume p.1 p.2
    (q.1, q.2, p.2, armed)
  | .returned e s tt => (e, s, tt, false)

/-- Struct rt_mutex: IPC parent plus the signed lock value, the owner
thread (a thread id, or none as the C null), the priority the owner had at
acquisition, and the recursion depth. -/
structure RtMutex where
  flag : Nat
  suspend_thread : List Nat
  suspend_thread_count : Nat
  value : Int
  owner : Option Nat
  original_priority : Nat
  hold : Nat
deriving DecidableEq

/-- rt_mutex_init: value 1, no owner, original priority 0xFF, hold 0. -/
def rt_mutex_init (flag : Nat) : RtMutex :=
  { flag := flag, suspend_thread := [], suspend_thread_count := 0,
    value := 1, owner := none, original_priority := 0xFF, hold := 0 }

/-- Point update of the thread store at one thread id. -/
def updThread (ths : Nat → RtThread) (tid : Nat) (f : RtThread → RtThread) :
    Nat → RtThread :=
  fun i => if i = tid then f (ths i) else ths i

/-- The kernel state the mutex operations touch: the mutex itself and the
store of all threads, indexed by thread id.  Ready-queue motion performed
by the out-of-scope scheduler interface is abstracted away; the priority
and state fields it maintains are kept. -/
structure MuSys where
  mutex : RtMutex
  threads : Nat → RtThread

/-- Outcome of rt_mutex_take up to the return or the rt_schedule call of
the blocking path; blocked records whether the thread timer was armed. -/
inductive MuTakeOut where
  | ret (e : Int)
  | blocked (armed : Bool)
deriving DecidableEq

/-- rt_mutex_take for caller thread id c.  The caller's error is reset
first.  An owner equal to the caller just deepens the hold.  A positive
value acquires: decrement value, record owner, original_priority and hold.
Otherwise a zero time returns TIMEOUT; otherwise the value is decremented,
and when the caller's current_priority is numerically lower than the
owner's the owner is boosted to the caller's priority through
rt_thread_control CHANGE_PRIORITY; then the caller is suspended and
appended to the wait queue (rt_ipc_object_suspend appends for both flags)
and the timer armed for positive time.  The C dereferences the owner
unconditionally in the boost test; the none case (unreachable while
value is not positive) is modelled as no boost. -/
def rt_mutex_take (sys : MuSys) (c : Nat) (time : Int) : MuTakeOut × MuSys :=
  let sys0 : MuSys :=
    { sys with threads := updThread sys.threads c (fun t => { t with error := RT_EOK }) }
  let thread := sys0.threads c
  if sys0.mutex.owner = some c then
    (.ret RT_EOK, { sys0 with mutex := { sys0.mutex with hold := sys0.mutex.hold + 1 } })
  else if sys0.mutex.value > 0 then
    (.ret RT_EOK,
     { sys0 with mutex := { sys0.mutex with
         value := sys0.mutex.value - 1,
         owner := some c,
         original_priority := thread.current_priority,
         hold := sys0.mutex.hold + 1 } })
  else if time = 0 then
    (.ret (-RT_ETIMEOUT),
     { sys0 with threads :=
        updThread sys0.threads c (fun t => { t with error := -RT_ETIMEOUT }) })
  else
    let sys1 : MuSys :=
      { sys0 with mutex := { sys0.mutex with value := sys0.mutex.value - 1 } }
    let sys2 : MuSys :=
      match sys1.mutex.owner with
      | some o =>
        if thread.current_priority < (sys1.threads o).current_priority then
          { sys1 with threads :=
              updThread sys1.threads o (fun t => { t with current_priority := thread.current_priority }) }
        else sys1
      | none => sys1
    let sys3 : MuSys :=
      { sys2 with
        mutex := { sys2.mutex with
          suspend_thread := sys2.mutex.suspend_thread ++ [c],
          suspend_thread_count := sys2.mutex.suspend_thread_count + 1 },
        threads :=
          updThread sys2.threads c (fun t => { t with stat := RT_THREAD_SUSPEND }) }
    (.blocked (decide (time > 0)), sys3)

/-- rt_mutex_release for caller thread id c.  A caller that is not the
owner gets ERROR and only its own error field stamped.  Otherwise the hold
is decremented; at zero the owner's priority is restored to its
init_priority when it differs, one waiter is woken when the value is not
positive and the wait count positive (rt_ipc_object_resume pops the queue
head), and the value is incremented.  The owner field is never written. -/
def rt_mutex_release (sys : MuSys) (c : Nat) : Int × MuSys :=
  if sys.mutex.owner ≠ some c then
    (-RT_ERROR,
     { sys with threads :=
        updThread sys.threads c (fun t => { t with error := -RT_ERROR }) })
  else
    let m1 : RtMutex := { sys.mutex with hold := sys.mutex.hold - 1 }
    if m1.hold = 0 then
      let sys1 : MuSys := { sys with mutex := m1 }
      let sys2 : MuSys :=
        if (sys1.threads c).init_priority ≠ (sys1.threads c).current_priority then
          { sys1 with threads :=
              updThread sys1.threads c (fun t => { t with current_priority := t.init_priority }) }
        else sys1
      let sys3 : MuSys :=
        if m1.value ≤ 0 ∧ sys2.mutex.suspend_thread_count > 0 then
          { sys2 with
            mutex := { sys2.mutex with
              suspend_thread := sys2.mutex.suspend_thread.tail,
              suspend_thread_count := sys2.mutex.suspend_thread_count - 1 },
            threads :=
              match sys2.mutex.suspend_thread with
              | w :: _ =>
                updThread sys2.threads w (fun t => { t with stat := RT_THREAD_READY })
              | [] => sys2.threads }
        else sys2
      (RT_EOK, { sys3 with mutex := { sys3.mutex with value := sys3.mutex.value + 1 } })
    else
      (RT_EOK, { sys with mutex := m1 })

/-- State after one rt_mutex_take by thread c (its returned state). -/
def mutexTakeSt (c : Nat) (time : Int) (sys : MuSys) : MuSys :=
  (rt_mutex_take sys c time).2

/-- State after one rt_mutex_release by thread c. -/
def mutexRelSt (c : Nat) (sys : MuSys) : MuSys :=
  (rt_mutex_release sys c).2

/-- N successive rt_mutex_take calls by the same thread. -/
def mutexTakeN : Nat → Nat → Int → MuSys → MuSys
  | 0, _, _, s => s
  | n + 1, c, time, s => mutexTakeN n c time (mutexTakeSt c time s)

/-- N successive rt_mutex_release calls by the same thread. -/
def mutexRelN : Nat → Nat → MuSys → MuSys
  | 0, _, s => s
  | n + 1, c, s => mutexRelN n c (mutexRelSt c s)

/-- Struct rt_event (the general flavor): IPC parent whose wait queue holds
the waiting threads themselves (their event_set and event_info matter),
plus the 32-bit flag set. -/
structure RtEvent where
  flag : Nat
  suspend_thread : List RtThread
  suspend_thread_count : Nat
  set : Nat
deriving DecidableEq

/-- The per-waiter satisfaction test of rt_event_send: status starts at
ERROR; the AND bit of event_info demands all bits of the waiter's
event_set inside the current set; otherwise the OR bit demands a nonempty
intersection. -/
def eventSatisfied (s : Nat) (t : RtThread) : Bool :=
  if t.event_info &&& RT_EVENT_FLAG_AND ≠ 0 then
    decide (t.event_set &&& s = t.event_set)
  else if t.event_info &&& RT_EVENT_FLAG_OR ≠ 0 then
    decide (t.event_set &&& s ≠ 0)
  else false

/-- The mutation a woken waiter applies to the event set: waiters whose
event_info carries CLEAR remove their event_set bits. -/
def eventClearStep (s : Nat) (t : RtThread) : Nat :=
  if t.event_info &&& RT_EVENT_FLAG_CLEAR ≠ 0 then Nat.ldiff s t.event_set else s

/-- The wait-list scan of rt_event_send: walk the queue front to back with
the current event set; a satisfied waiter is moved to the woken list and
applies its clear step before the next waiter is examined; an unsatisfied
waiter stays queued.  Returns the final set, the woken waiters and the
remaining queue, both in original order. -/
def eventSendScan : Nat → List RtThread → Nat × List RtThread × List RtThread
  | s, [] => (s, [], [])
  | s, t :: ts =>
    if eventSatisfied s t then
      let r := eventSendScan (eventClearStep s t) ts
      (r.1, t :: r.2.1, r.2.2)
    else
      let r := eventSendScan s ts
      (r.1, r.2.1, t :: r.2.2)

/-- rt_event_send: a zero set is rejected with ERROR; otherwise the set is
ORed into the event first, and when the suspended count is positive the
wait list is scanned, every satisfied waiter resumed (returned in the
woken list), the suspended count decremented once per woken waiter, and
CLEAR waiters strip their bits from the set as the scan passes them. -/
def rt_event_send (ev : RtEvent) (set : Nat) : Int × RtEvent × List RtThread :=
  if set = 0 then (-RT_ERROR, ev, [])
  else
    let s0 := ev.set ||| set
    if ev.suspend_thread_count > 0 then
      let r := eventSendScan s0 ev.suspend_thread
      (RT_EOK,
       { ev with
         set := r.1,
         suspend_thread := r.2.2,
         suspend_thread_count := ev.suspend_thread_count - r.2.1.length },
       r.2.1)
    else
      (RT_EOK, { ev with set := s0 }, [])

/-- Struct rt_mailbox: IPC parent, the word pool, its capacity and the ring
offsets and entry count. -/
structure RtMailbox where
  flag : Nat
  suspend_thread : List Nat
  suspend_thread_count : Nat
  msg_pool : List Nat
  size : Nat
  entry : Nat
  in_offset : Nat
  out_offset : Nat
deriving DecidableEq

/-- rt_mb_init: caller-provided pool and capacity, empty ring. -/
def rt_mb_init (msgpool : List Nat) (size : Nat) (flag : Nat) : RtMailbox :=
  { flag := flag, suspend_thread := [], suspend_thread_count := 0,
    msg_pool := msgpool, size := size, entry := 0, in_offset := 0, out_offset := 0 }

/-- rt_mb_send: a full mailbox (entry equal to size) fails fast with FULL
and changes nothing.  Otherwise the value is stored at in_offset, the
in_offset advanced modulo size, the entry count incremented, and when the
suspended count is positive one waiter (the queue head) is resumed; the
Bool reports whether a waiter was woken. -/
def rt_mb_send (mb : RtMailbox) (value : Nat) : Int × RtMailbox × Bool :=
  if mb.entry = mb.size then (-RT_EFULL, mb, false)
  else
    let mb1 : RtMailbox := { mb with
      msg_pool := mb.msg_pool.set mb.in_offset value,
      in_offset := (mb.in_offset + 1) % mb.size,
      entry := mb.entry + 1 }
    if mb1.suspend_thread_count > 0 then
      (RT_EOK,
       { mb1 with
         suspend_thread := mb1.suspend_thread.tail,
         suspend_thread_count := mb1.suspend_thread_count - 1 },
       true)
    else
      (RT_EOK, mb1, false)

/-- Outcome of rt_mb_recv up to its return or its rt_schedule call. -/
inductive MbRecvRes where
  | returned (e : Int) (mb : RtMailbox) (t : RtThread) (value : Option Nat)
  | blocked (mb : RtMailbox) (t : RtThread) (armed : Bool)
deriving DecidableEq

/-- rt_mb_recv: an empty mailbox with zero timeout returns TIMEOUT; an
empty mailbox with nonzero timeout suspends the caller at the queue tail
and arms the timer for positive timeout.  Otherwise the word at out_offset
is read, the out_offset advanced modulo size and the entry count
decremented.  Receiving never wakes a sender (sends do not block). -/
def rt_mb_recv (mb : RtMailbox) (t : RtThread) (timeout : Int) : MbRecvRes :=
  if mb.entry = 0 then
    if timeout = 0 then
      .returned (-RT_ETIMEOUT) mb { t with error := -RT_ETIMEOUT } none
    else
      let t1 := { t with error := RT_EOK, stat := RT_THREAD_SUSPEND }
      let mb1 : RtMailbox := { mb with
        suspend_thread := mb.suspend_thread ++ [t1.tid],
        suspend_thread_count := mb.suspend_thread_count + 1 }
      .blocked mb1 t1 (decide (timeout > 0))
  else
    .returned RT_EOK
      { mb with out_offset := (mb.out_offset + 1) % mb.size, entry := mb.entry - 1 }
      t (some (mb.msg_pool.getD mb.out_offset 0))

/-- One message cell of a message queue: its address inside the pool (the
identity the C links through struct rt_mq_message pointers) and the bytes
currently stored behind the header. -/
structure MqMsg where
  addr : Nat
  payload : List Nat
deriving DecidableEq

/-- RT_ALIGN: round size up to a multiple of align. -/
def RT_ALIGN (size align : Nat) : Nat :=
  (size + align - 1) / align * align

/-- Modelled from the spec: the platform alignment constant of the missing
header; its exact value does not affect any linkage claim. -/
def RT_ALIGN_SIZE : Nat := 4

/-- Struct rt_messagequeue: IPC parent, aligned message size, capacity,
the live FIFO from msg_queue_head to msg_queue_tail (msg_queue), the
singly linked free stack (msg_queue_free, head is the stack top) and the
entry count. -/
structure RtMessageQueue where
  flag : Nat
  suspend_thread : List Nat
  suspend_thread_count : Nat
  msg_size : Nat
  max_msgs : Nat
  msg_queue : List MqMsg
  msg_queue_free : List MqMsg
  entry : Nat
deriving DecidableEq

/-- rt_mq_init: the pool is carved into max_msgs cells, each pushed onto
the free stack in address order (so the stack top ends up the highest
address); the FIFO starts empty with zero entries.  The C computes
max_msgs from pool_size; the capacity is taken directly here, as
rt_mq_create does. -/
def rt_mq_init (flag msg_size max_msgs : Nat) : RtMessageQueue :=
  { flag := flag, suspend_thread := [], suspend_thread_count := 0,
    msg_size := RT_ALIGN msg_size RT_ALIGN_SIZE, max_msgs := max_msgs,
    msg_queue := [],
    msg_queue_free :=
      (List.range max_msgs).foldl (fun fl i => ⟨i, []⟩ :: fl) [],
    entry := 0 }

/-- rt_mq_send: a buffer larger than msg_size is rejected with ERROR; an
empty free stack means FULL; otherwise the top free cell is popped, the
buffer copied into it, the cell appended at the FIFO tail, the entry count
incremented and one waiter woken when the suspended count is positive. -/
def rt_mq_send (mq : RtMessageQueue) (buffer : List Nat) : Int × RtMessageQueue :=
  if buffer.length > mq.msg_size then (-RT_ERROR, mq)
  else
    match mq.msg_queue_free with
    | [] => (-RT_EFULL, mq)
    | msg :: rest =>
      let mq1 : RtMessageQueue := { mq with
        msg_queue_free := rest,
        msg_queue := mq.msg_queue ++ [{ msg with payload := buffer }],
        entry := mq.entry + 1 }
      if mq1.suspend_thread_count > 0 then
        (RT_EOK,
         { mq1 with
           suspend_thread := mq1.suspend_thread.tail,
           suspend_thread_count := mq1.suspend_thread_count - 1 })
      else (RT_EOK, mq1)

/-- rt_mq_urgent: as rt_mq_send but the popped cell is linked at the FIFO
head instead of the tail. -/
def rt_mq_urgent (mq : RtMessageQueue) (buffer : List Nat) : Int × RtMessageQueue :=
  if buffer.length > mq.msg_size then (-RT_ERROR, mq)
  else
    match mq.msg_queue_free with
    | [] => (-RT_EFULL, mq)
    | msg :: rest =>
      let mq1 : RtMessageQueue := { mq with
        msg_queue_free := rest,
        msg_queue := { msg with payload := buffer } :: mq.msg_queue,
        entry := mq.entry + 1 }
      if mq1.suspend_thread_count > 0 then
        (RT_EOK,
         { mq1 with
           suspend_thread := mq1.suspend_thread.tail,
           suspend_thread_count := mq1.suspend_thread_count - 1 })
      else (RT_EOK, mq1)

/-- Outcome of rt_mq_recv up to its return or its rt_schedule call. -/
inductive MqRecvRes where
  | returned (e : Int) (mq : RtMessageQueue) (t : RtThread) (data : Option (List Nat))
  | blocked (mq : RtMessageQueue) (t : RtThread) (armed : Bool)
deriving DecidableEq

/-- rt_mq_recv: an empty queue with zero timeout returns TIMEOUT; an empty
queue with nonzero timeout suspends the caller and arms the timer for
positive timeout.  Otherwise the FIFO head cell is popped, at most
min size msg_size bytes copied out, and the cell pushed back onto the free
stack.  An empty FIFO with a nonzero entry count cannot arise under the
queue invariant (the C would dereference a null head there); it is
modelled as returning with the state unchanged. -/
def rt_mq_recv (mq : RtMessageQueue) (t : RtThread) (size : Nat) (timeout : Int) :
    MqRecvRes :=
  if mq.entry = 0 then
    if timeout = 0 then
      .returned (-RT_ETIMEOUT) mq { t with error := -RT_ETIMEOUT } none
    else
      let t1 := { t with error := RT_EOK, stat := RT_THREAD_SUSPEND }
      let mq1 : RtMessageQueue := { mq with
        suspend_thread := mq.suspend_thread ++ [t1.tid],
        suspend_thread_count := mq.suspend_thread_count + 1 }
      .blocked mq1 t1 (decide (timeout > 0))
  else
    match mq.msg_queue with
    | [] => .returned RT_EOK mq t none
    | msg :: rest =>
      .returned RT_EOK
        { mq with
          msg_queue := rest,
          msg_queue_free := msg :: mq.msg_queue_free,
          entry := mq.entry - 1 }
        t (some (msg.payload.take (min size mq.msg_size)))

/-- The message-queue state carried inside an rt_mq_recv outcome. -/
def mqRecvState : MqRecvRes → RtMessageQueue
  | .returned _ mq _ _ => mq
  | .blocked mq _ _ => mq

/-- The partition invariant of a message queue: the entry count equals the
FIFO length, entry plus the free-stack length equals the capacity, and no
cell address occurs twice across the free stack and the FIFO (together
with the conservation of the address multiset this says every cell is
linked in exactly one of the two lists). -/
def MqInv (mq : RtMessageQueue) : Prop :=
  mq.entry = mq.msg_queue.length ∧
  mq.entry + mq.msg_queue_free.length = mq.max_msgs ∧
  ((mq.msg_queue_free ++ mq.msg_queue).map MqMsg.addr).Nodup

instance (mq : RtMessageQueue) : Decidable (MqInv mq) := by
  unfold MqInv; infer_instance

/-- The multiset of cell addresses of a message queue, free stack first. -/
def mqAddrs (mq : RtMessageQueue) : List Nat :=
  (mq.msg_queue_free ++ mq.msg_queue).map MqMsg.addr

/-- The mailbox state carried inside an rt_mb_recv outcome. -/
def mbRecvState : MbRecvRes → RtMailbox
  | .returned _ mb _ _ => mb
  | .blocked mb _ _ => mb

/-- The received mail carried inside an rt_mb_recv outcome. -/
def mbRecvVal : MbRecvRes → Option Nat
  | .returned _ _ _ v => v
  | .blocked _ _ _ => none

/-- A concrete thread of priority 10, used in concrete instances. -/
def thrP10 : RtThread :=
  { tid := 1, init_priority := 10, current_priority := 10, error := 0,
    stat := RT_THREAD_SUSPEND, event_set := 0, event_info := 0 }

/-- A concrete thread of priority 5, used in concrete instances. -/
def thrP5 : RtThread :=
  { tid := 2, init_priority := 5, current_priority := 5, error := 0,
    stat := RT_THREAD_READY, event_set := 0, event_info := 0 }

/-- A concrete thread store: thread i has priority 10 + i. -/
def thrStore : Nat → RtThread :=
  fun i => { tid := i, init_priority := 10 + i, current_priority := 10 + i,
             error := 0, stat := RT_THREAD_READY, event_set := 0, event_info := 0 }

/-- A concrete kernel state holding a freshly initialized mutex. -/
def muSysFree : MuSys :=
  { mutex := rt_mutex_init RT_IPC_FLAG_FIFO, threads := thrStore }

/-- A concrete kernel state: thread 7 owns the mutex once, thread 3 has a
higher urgency (lower number) and is about to block on it. -/
def muSysOwned : MuSys :=
  { mutex := { flag := RT_IPC_FLAG_FIFO, suspend_thread := [],
               suspend_thread_count := 0, value := 0, owner := some 7,
               original_priority := 17, hold := 1 },
    threads := thrStore }

/-- A concrete capacity-2 mailbox, fresh. -/
def mbCap2 : RtMailbox := rt_mb_init [0, 0] 2 RT_IPC_FLAG_FIFO

/-- The capacity-2 mailbox after one successful send of 10. -/
def mbCap2one : RtMailbox := (rt_mb_send mbCap2 10).2.1

/-- The capacity-2 mailbox after two successful sends (10 then 11). -/
def mbCap2two : RtMailbox := (rt_mb_send mbCap2one 11).2.1

/-- The full capacity-2 mailbox after one receive. -/
def mbCap2afterRecv : RtMailbox := mbRecvState (rt_mb_recv mbCap2two thrP5 0)

/-- A concrete event with one AND-CLEAR waiter on bits 1 and 2 and one OR
waiter on bit 3, used in concrete instances. -/
def evConcrete : RtEvent :=
  { flag := RT_IPC_FLAG_FIFO,
    suspend_thread :=
      [{ tid := 1, init_priority := 10, current_priority := 10, error := 0,
         stat := RT_THREAD_SUSPEND, event_set := 3,
         event_info := RT_EVENT_FLAG_AND + RT_EVENT_FLAG_CLEAR },
       { tid := 2, init_priority := 11, current_priority := 11, error := 0,
         stat := RT_THREAD_SUSPEND, event_set := 8,
         event_info := RT_EVENT_FLAG_OR }],
    suspend_thread_count := 2,
    set := 0 }

/-- A concrete message queue of capacity 2 with message size 4. -/
def mqCap2 : RtMessageQueue := rt_mq_init RT_IPC_FLAG_FIFO 4 2

/-- A concrete semaphore with value 0 and no waiters. -/
def semZero : RtSemaphore := rt_sem_init 0 RT_IPC_FLAG_FIFO

/-! Helper lemmas about the thread-store point update. -/

theorem updThread_self (ths : Nat → RtThread) (tid : Nat) (f : RtThread → RtThread) :
    updThread ths tid f tid = f (ths tid) := by
  simp [updThread]

theorem updThread_ne (ths : Nat → RtThread) (tid : Nat) (f : RtThread → RtThread)
    (i : Nat) (h : i ≠ tid) : updThread ths tid f i = ths i := by
  simp [updThread, h]

theorem updThread_stat_current_priority (ths : Nat → RtThread) (w o s : Nat) :
    ((updThread ths w (fun t => { t with stat := s })) o).current_priority
      = (ths o).current_priority := by
  unfold updThread
  split <;> rfl

theorem updThread_error_current_priority (ths : Nat → RtThread) (c o : Nat) (e : Int) :
    ((updThread ths c (fun t => { t with error := e })) o).current_priority
      = (ths o).current_priority := by
  unfold updThread
  split <;> rfl

/-- C1: rt_ipc_object_suspend with the PRIO flag does not insert the new
waiter before the first queued thread of numerically greater priority: on
a queue holding one thread of priority 10, a new waiter of priority 5 is
appended after it (the search loop finds position 0 but the insertion
targets the sentinel, appending at the tail), while the claimed insertion
would put the priority-5 waiter at the head; the head that a single wake
pops is therefore the priority-10 thread, not the smallest-priority
waiter. -/
theorem rt_ipc_object_suspend_prio_inserts_at_tail :
    rt_ipc_object_suspend_queue RT_IPC_FLAG_PRIO [thrP10] thrP5 = [thrP10, thrP5]
    ∧ prioClaimInsert [thrP10] thrP5 = [thrP5, thrP10]
    ∧ prioSearchPos [thrP10] thrP5 = 0
    ∧ (rt_ipc_object_suspend_queue RT_IPC_FLAG_PRIO [thrP10] thrP5).head?
        = some thrP10
    ∧ thrP10.current_priority = 10 ∧ thrP5.current_priority = 5 := by
  refine ⟨rfl, ?_, ?_, rfl, rfl, rfl⟩ <;> decide

/-- C3: rt_sem_take with a positive value decrements it and returns OK
without blocking; with a non-positive value and zero time it returns
TIMEOUT leaving the semaphore unchanged; rt_sem_trytake is exactly
rt_sem_take with time 0. -/
theorem rt_sem_take_fast_paths (sem : RtSemaphore) (t : RtThread) (time : Int) :
    (sem.value > 0 →
      rt_sem_take sem t time = .returned RT_EOK { sem with value := sem.value - 1 } t)
    ∧ (sem.value ≤ 0 →
      rt_sem_take sem t 0 = .returned (-RT_ETIMEOUT) sem t)
    ∧ rt_sem_trytake sem t = rt_sem_take sem t 0 := by
  refine ⟨fun h => ?_, fun h => ?_, rfl⟩
  · simp [rt_sem_take, h]
  · have h2 : ¬ sem.value > 0 := not_lt.mpr h
    simp [rt_sem_take, h2]

/-- Witness for rt_sem_take_fast_paths at concrete semaphores. -/
theorem rt_sem_take_fast_paths_witness :
    (rt_sem_take (rt_sem_init 2 0) thrP5 7
      = .returned RT_EOK { rt_sem_init 2 0 with value := 1 } thrP5)
    ∧ (rt_sem_take semZero thrP5 0 = .returned (-RT_ETIMEOUT) semZero thrP5)
    ∧ rt_sem_trytake semZero thrP5 = rt_sem_take semZero thrP5 0 := by
  refine ⟨?_, ?_, (rt_sem_take_fast_paths semZero thrP5 0).2.2⟩
  · have h := (rt_sem_take_fast_paths (rt_sem_init 2 0) thrP5 7).1 (by decide)
    simpa using h
  · exact (rt_sem_take_fast_paths semZero thrP5 0).2.1 (by decide)

/-- C5: rt_mutex_release called by a thread that is not the owner returns
ERROR and leaves the whole mutex record (value, owner, hold,
original_priority, wait queue and wait count) unchanged. -/
theorem rt_mutex_release_non_owner_error (sys : MuSys) (c : Nat)
    (h : sys.mutex.owner ≠ some c) :
    (rt_mutex_release sys c).1 = -RT_ERROR
    ∧ (rt_mutex_release sys c).2.mutex = sys.mutex := by
  constructor <;> simp [rt_mutex_release, h]

/-- Witness for rt_mutex_release_non_owner_error: thread 3 releasing a
mutex owned by nobody. -/
theorem rt_mutex_release_non_owner_error_witness :
    (rt_mutex_release muSysFree 3).1 = -RT_ERROR
    ∧ (rt_mutex_release muSysFree 3).2.mutex = muSysFree.mutex :=
  rt_mutex_release_non_owner_error muSysFree 3 (by decide)

/-- C10: rt_mutex_release never writes the owner field, so after a full
release (hold reaching 0, with or without a woken waiter) the owner is
still the releasing thread, and a subsequent rt_mutex_take by that thread
takes the already-owner branch: it returns OK, increments hold and leaves
the value untouched. -/
theorem rt_mutex_release_keeps_owner :
    (∀ sys c, ((rt_mutex_release sys c).2).mutex.owner = sys.mutex.owner)
    ∧ (∀ sys c time, sys.mutex.owner = some c → sys.mutex.hold = 1 →
        ((rt_mutex_release sys c).2.mutex.owner = some c
         ∧ (rt_mutex_take ((rt_mutex_release sys c).2) c time).1 = .ret RT_EOK
         ∧ (rt_mutex_take ((rt_mutex_release sys c).2) c time).2.mutex.hold
             = ((rt_mutex_release sys c).2).mutex.hold + 1
         ∧ (rt_mutex_take ((rt_mutex_release sys c).2) c time).2.mutex.value
             = ((rt_mutex_release sys c).2).mutex.value)) := by
  have keep : ∀ sys c, ((rt_mutex_release sys c).2).mutex.owner = sys.mutex.owner := by
    intro sys c
    unfold rt_mutex_release
    dsimp only
    split_ifs <;> rfl
  refine ⟨keep, fun sys c time h1 h2 => ?_⟩
  have hown : ((rt_mutex_release sys c).2).mutex.owner = some c := by
    rw [keep, h1]
  refine ⟨hown, ?_, ?_, ?_⟩ <;> simp [rt_mutex_take, hown, updThread]

/-- Witness for rt_mutex_release_keeps_owner: thread 7 fully releases the
mutex it owns with hold 1, then retakes it. -/
theorem rt_mutex_release_keeps_owner_witness :
    (rt_mutex_release muSysOwned 7).2.mutex.owner = some 7
    ∧ (rt_mutex_take ((rt_mutex_release muSysOwned 7).2) 7 0).1 = .ret RT_EOK
    ∧ (rt_mutex_take ((rt_mutex_release muSysOwned 7).2) 7 0).2.mutex.hold
        = ((rt_mutex_release muSysOwned 7).2).mutex.hold + 1
    ∧ (rt_mutex_take ((rt_mutex_release muSysOwned 7).2) 7 0).2.mutex.value
        = ((rt_mutex_release muSysOwned 7).2).mutex.value :=
  rt_mutex_release_keeps_owner.2 muSysOwned 7 0 (by decide) (by decide)

/-- C2: when rt_mutex_take must block (value not positive, nonzero time)
and the caller's current_priority is numerically lower than the owner's,
the owner is boosted to the caller's priority; when the priorities are not
so ordered (in particular when equal) the owner keeps its priority; and a
full rt_mutex_release (hold reaching 0) restores the owner's
current_priority to its init_priority. -/
theorem rt_mutex_priority_inheritance :
    (∀ sys c o time,
      sys.mutex.owner = some o → o ≠ c → ¬ sys.mutex.value > 0 → time ≠ 0 →
      ((rt_mutex_take sys c time).1 = .blocked (decide (time > 0))
       ∧ ((sys.threads c).current_priority < (sys.threads o).current_priority →
            ((rt_mutex_take sys c time).2.threads o).current_priority
              = (sys.threads c).current_priority)
       ∧ (¬ (sys.threads c).current_priority < (sys.threads o).current_priority →
            ((rt_mutex_take sys c time).2.threads o).current_priority
              = (sys.threads o).current_priority)))
    ∧ (∀ sys o, sys.mutex.owner = some o → sys.mutex.hold = 1 →
        (((rt_mutex_release sys o).2).threads o).current_priority
          = (sys.threads o).init_priority) := by
  constructor
  · intro sys c o time h1 h2 h3 h4
    have hoc : ¬ sys.mutex.owner = some c := by
      simp [h1, Option.some.injEq, h2]
    unfold rt_mutex_take
    try dsimp only
    rw [if_neg hoc, if_neg h3, if_neg h4]
    try dsimp only
    rw [h1]
    try dsimp only
    have hc : ∀ f : RtThread → RtThread, updThread sys.threads c f c = f (sys.threads c) :=
      fun f => updThread_self sys.threads c f
    have ho : ∀ f : RtThread → RtThread, updThread sys.threads c f o = sys.threads o :=
      fun f => updThread_ne sys.threads c f o h2
    rw [hc, ho]
    try dsimp only
    split_ifs with hcp
    · refine ⟨rfl, fun _ => ?_, fun hn => absurd hcp hn⟩
      try dsimp only
      rw [updThread_ne _ _ _ o h2, updThread_self]
    · refine ⟨rfl, fun hy => absurd hy hcp, fun _ => ?_⟩
      try dsimp only
      rw [updThread_ne _ _ _ o h2, ho]
  · intro sys o h1 h2
    have hno : ¬ sys.mutex.owner ≠ some o := by simp [h1]
    have hh : sys.mutex.hold - 1 = 0 := by rw [h2]
    unfold rt_mutex_release
    try dsimp only
    rw [if_neg hno]
    try dsimp only
    rw [if_pos hh]
    try dsimp only
    split_ifs with hr hw hw2
    · cases hq : sys.mutex.suspend_thread with
      | nil =>
        try dsimp only
        rw [updThread_self]
      | cons w rest =>
        try dsimp only
        rw [updThread_stat_current_priority, updThread_self]
    · try dsimp only
      rw [updThread_self]
    · cases hq : sys.mutex.suspend_thread with
      | nil =>
        try dsimp only
        exact (not_ne_iff.mp hr).symm
      | cons w rest =>
        try dsimp only
        rw [updThread_stat_current_priority]
        exact (not_ne_iff.mp hr).symm
    · try dsimp only
      exact (not_ne_iff.mp hr).symm

/-- Witness for rt_mutex_priority_inheritance: thread 3 (priority 13)
blocks on the mutex owned by thread 7 (priority 17), boosting the owner to
13; and thread 7 fully releasing its mutex ends at its init priority. -/
theorem rt_mutex_priority_inheritance_witness :
    ((rt_mutex_take muSysOwned 3 50).1 = .blocked true
     ∧ ((rt_mutex_take muSysOwned 3 50).2.threads 7).current_priority = 13)
    ∧ (((rt_mutex_release muSysOwned 7).2).threads 7).current_priority = 17 := by
  have h := rt_mutex_priority_inheritance.1 muSysOwned 3 7 50
    (by decide) (by decide) (by decide) (by decide)
  refine ⟨⟨?_, ?_⟩, rt_mutex_priority_inheritance.2 muSysOwned 7 (by decide) (by decide)⟩
  · simpa using h.1
  · simpa using h.2.1 (by decide)

/-- One rt_mutex_take by the current owner only deepens the hold. -/
theorem mutexTakeSt_owned (c : Nat) (time : Int) (sys : MuSys)
    (h : sys.mutex.owner = some c) :
    (mutexTakeSt c time sys).mutex = { sys.mutex with hold := sys.mutex.hold + 1 } := by
  unfold mutexTakeSt rt_mutex_take
  dsimp only
  rw [if_pos h]

/-- Iterated rt_mutex_take by the current owner adds to the hold and
leaves every other mutex field unchanged. -/
theorem mutexTakeN_owned (k : Nat) (c : Nat) (time : Int) :
    ∀ sys : MuSys, sys.mutex.owner = some c →
      (mutexTakeN k c time sys).mutex = { sys.mutex with hold := sys.mutex.hold + k } := by
  induction k with
  | zero =>
    intro sys _
    simp [mutexTakeN]
  | succ k ih =>
    intro sys h
    have hstep := mutexTakeSt_owned c time sys h
    have hown : (mutexTakeSt c time sys).mutex.owner = some c := by
      rw [hstep]; exact h
    calc (mutexTakeN (k + 1) c time sys).mutex
        = (mutexTakeN k c time (mutexTakeSt c time sys)).mutex := rfl
      _ = { (mutexTakeSt c time sys).mutex with
            hold := (mutexTakeSt c time sys).mutex.hold + k } := ih _ hown
      _ = { sys.mutex with hold := sys.mutex.hold + (k + 1) } := by
          rw [hstep]
          dsimp only
          rw [Nat.add_assoc, Nat.add_comm 1 k]

/-- Iterated rt_mutex_release by the owner of an uncontended mutex with
value 0 drives the hold to 0 and the value back to 1. -/
theorem mutexRelN_owned (k : Nat) (c : Nat) :
    ∀ sys : MuSys, sys.mutex.owner = some c → sys.mutex.value = 0 →
      sys.mutex.suspend_thread_count = 0 → sys.mutex.hold = k + 1 →
      (mutexRelN (k + 1) c sys).mutex.hold = 0
      ∧ (mutexRelN (k + 1) c sys).mutex.value = 1 := by
  induction k with
  | zero =>
    intro sys h1 h2 h3 h4
    have hno : ¬ sys.mutex.owner ≠ some c := by simp [h1]
    have hh : sys.mutex.hold - 1 = 0 := by rw [h4]
    have hw : ¬ (sys.mutex.value ≤ 0 ∧ sys.mutex.suspend_thread_count > 0) := by
      rw [h3]; simp
    show (mutexRelSt c sys).mutex.hold = 0 ∧ (mutexRelSt c sys).mutex.value = 1
    unfold mutexRelSt rt_mutex_release
    try dsimp only
    rw [if_neg hno]
    try dsimp only
    rw [if_pos hh]
    try dsimp only
    by_cases hrr : (sys.threads c).init_priority ≠ (sys.threads c).current_priority
    · simp only [if_pos hrr]
      try dsimp only
      rw [if_neg hw]
      exact ⟨hh, by try dsimp only; rw [h2]; norm_num⟩
    · simp only [if_neg hrr]
      try dsimp only
      rw [if_neg hw]
      exact ⟨hh, by try dsimp only; rw [h2]; norm_num⟩
  | succ k ih =>
    intro sys h1 h2 h3 h4
    have hno : ¬ sys.mutex.owner ≠ some c := by simp [h1]
    have hh : ¬ sys.mutex.hold - 1 = 0 := by rw [h4]; simp
    have hstep : (mutexRelSt c sys).mutex = { sys.mutex with hold := sys.mutex.hold - 1 } := by
      unfold mutexRelSt rt_mutex_release
      try dsimp only
      rw [if_neg hno]
      try dsimp only
      rw [if_neg hh]
    have := ih (mutexRelSt c sys)
      (by rw [hstep]; exact h1) (by rw [hstep]; exact h2)
      (by rw [hstep]; exact h3) (by rw [hstep]; dsimp only; rw [h4]; rfl)
    exact this

/-- C6: starting from a freshly initialized mutex, N rt_mutex_take calls
by one thread (the first acquires, the rest recurse) followed by N
rt_mutex_release calls by that thread end with hold 0 and the value back
at its pre-acquisition value 1. -/
theorem rt_mutex_recursive_take_release_roundtrip
    (N c : Nat) (time : Int) (ths : Nat → RtThread) (flag : Nat) (hN : 1 ≤ N) :
    ((mutexRelN N c (mutexTakeN N c time
        { mutex := rt_mutex_init flag, threads := ths })).mutex.hold = 0)
    ∧ ((mutexRelN N c (mutexTakeN N c time
        { mutex := rt_mutex_init flag, threads := ths })).mutex.value = 1) := by
  obtain ⟨k, rfl⟩ : ∃ k, N = k + 1 := ⟨N - 1, (Nat.succ_pred_eq_of_pos hN).symm⟩
  have hfirst : (mutexTakeSt c time { mutex := rt_mutex_init flag, threads := ths }).mutex
      = { flag := flag, suspend_thread := [], suspend_thread_count := 0,
          value := 0, owner := some c,
          original_priority := (ths c).current_priority, hold := 1 } := by
    unfold mutexTakeSt rt_mutex_take
    try dsimp only
    rw [if_neg (show ¬ (rt_mutex_init flag).owner = some c by simp [rt_mutex_init])]
    rw [if_pos (show (rt_mutex_init flag).value > 0 by norm_num [rt_mutex_init])]
    try dsimp only [rt_mutex_init]
    rw [updThread_self]
    norm_num
  have htake : (mutexTakeN (k + 1) c time { mutex := rt_mutex_init flag, threads := ths }).mutex
      = { flag := flag, suspend_thread := [], suspend_thread_count := 0,
          value := 0, owner := some c,
          original_priority := (ths c).current_priority, hold := k + 1 } := by
    calc (mutexTakeN (k + 1) c time { mutex := rt_mutex_init flag, threads := ths }).mutex
        = (mutexTakeN k c time (mutexTakeSt c time
            { mutex := rt_mutex_init flag, threads := ths })).mutex := rfl
      _ = { (mutexTakeSt c time { mutex := rt_mutex_init flag, threads := ths }).mutex with
            hold := (mutexTakeSt c time
              { mutex := rt_mutex_init flag, threads := ths }).mutex.hold + k } :=
          mutexTakeN_owned k c time _ (by rw [hfirst])
      _ = _ := by rw [hfirst]; try dsimp only; rw [Nat.add_comm 1 k]
  exact mutexRelN_owned k c (mutexTakeN (k + 1) c time { mutex := rt_mutex_init flag, threads := ths })
    (by rw [htake]) (by rw [htake]) (by rw [htake]) (by rw [htake])

/-- Witness for the recursive mutex roundtrip at N = 3. -/
theorem rt_mutex_recursive_take_release_roundtrip_witness :
    ((mutexRelN 3 5 (mutexTakeN 3 5 20
        { mutex := rt_mutex_init RT_IPC_FLAG_PRIO, threads := thrStore })).mutex.hold = 0)
    ∧ ((mutexRelN 3 5 (mutexTakeN 3 5 20
        { mutex := rt_mutex_init RT_IPC_FLAG_PRIO, threads := thrStore })).mutex.value = 1) :=
  rt_mutex_recursive_take_release_roundtrip 3 5 20 thrStore RT_IPC_FLAG_PRIO (by decide)

/-- C4: a thread blocking in rt_sem_take with a finite positive timeout on
an unavailable semaphore whose queue does not already hold its id, with no
release occurring, is woken by its timer with error TIMEOUT: the take
returns TIMEOUT, the suspended-thread count is decremented back to its
pre-take value (0 when it was the only waiter) and the thread's id is gone
from the wait queue; the thread timer had indeed been armed. -/
theorem rt_sem_take_timeout_restores_wait_count
    (sem : RtSemaphore) (t : RtThread) (time : Int)
    (hv : ¬ sem.value > 0) (ht : 0 < time)
    (hq : ∀ x ∈ sem.suspend_thread, x ≠ t.tid) :
    (semTimeoutScenario sem t time).1 = -RT_ETIMEOUT
    ∧ (semTimeoutScenario sem t time).2.1.suspend_thread_count
        = sem.suspend_thread_count
    ∧ (semTimeoutScenario sem t time).2.1.suspend_thread = sem.suspend_thread
    ∧ (semTimeoutScenario sem t time).2.2.2 = true := by
  have ht0 : time ≠ 0 := ht.ne'
  have herase :
      (sem.suspend_thread ++ [t.tid]).eraseP (fun x => x == t.tid)
        = sem.suspend_thread := by
    rw [List.eraseP_append_right]
    · simp
    · intro b hb
      simpa using hq b hb
  have harmed : decide (time > 0) = true := by simpa using ht
  unfold semTimeoutScenario
  simp only [rt_sem_take, if_neg hv, if_neg ht0]
  simp only [rt_thread_timeout, rt_sem_take_resume, rt_ipc_object_decrease]
  have hne : (-RT_ETIMEOUT : Int) ≠ RT_EOK := by norm_num [RT_ETIMEOUT, RT_EOK]
  refine ⟨?_, ?_, ?_, ?_⟩ <;> simp [hne, herase, harmed]

/-- Witness for the semaphore timeout scenario: the sole waiter on a
value-0 semaphore times out after 100 ticks and the wait count returns to
0. -/
theorem rt_sem_take_timeout_restores_wait_count_witness :
    (semTimeoutScenario semZero thrP5 100).1 = -RT_ETIMEOUT
    ∧ (semTimeoutScenario semZero thrP5 100).2.1.suspend_thread_count = 0
    ∧ (semTimeoutScenario semZero thrP5 100).2.1.suspend_thread = []
    ∧ (semTimeoutScenario semZero thrP5 100).2.2.2 = true := by
  have h := rt_sem_take_timeout_restores_wait_count semZero thrP5 100
    (by decide) (by decide) (by intro x hx; simp [semZero, rt_sem_init] at hx)
  simpa [semZero, rt_sem_init] using h

/-! Bitwise helper lemmas for the event-flag proofs. -/

theorem bitSubset_iff (a b : Nat) :
    a &&& b = a ↔ ∀ i, a.testBit i = true → b.testBit i = true := by
  constructor
  · intro h i hi
    have h2 := congrArg (fun n => n.testBit i) h
    simp only [Nat.testBit_land, hi, Bool.true_and] at h2
    exact h2
  · intro h
    apply Nat.eq_of_testBit_eq
    intro i
    rw [Nat.testBit_land]
    cases hai : a.testBit i with
    | false => simp
    | true => simp [h i hai]

theorem bitSubset_trans {a b c : Nat} (h1 : a &&& b = a) (h2 : b &&& c = b) :
    a &&& c = a := by
  rw [bitSubset_iff] at *
  exact fun i hi => h2 i (h1 i hi)

theorem ldiff_bitSubset (s x : Nat) : Nat.ldiff s x &&& s = Nat.ldiff s x := by
  rw [bitSubset_iff]
  intro i hi
  rw [Nat.testBit_ldiff] at hi
  exact (Bool.and_eq_true _ _ |>.mp hi).1

theorem land_ne_zero_iff (a b : Nat) :
    a &&& b ≠ 0 ↔ ∃ i, a.testBit i = true ∧ b.testBit i = true := by
  constructor
  · intro h
    by_contra hc
    push_neg at hc
    apply h
    apply Nat.eq_of_testBit_eq
    intro i
    rw [Nat.testBit_land, Nat.zero_testBit]
    cases hai : a.testBit i with
    | false => simp
    | true =>
      have := hc i hai
      simp [this]
  · rintro ⟨i, ha, hb⟩ h0
    have := congrArg (fun n => n.testBit i) h0
    simp [Nat.testBit_land, ha, hb, Nat.zero_testBit] at this

theorem land_self_eq (a : Nat) : a &&& a = a :=
  (bitSubset_iff a a).mpr (fun _ hi => hi)

theorem eventClearStep_bitSubset (s : Nat) (t : RtThread) :
    eventClearStep s t &&& s = eventClearStep s t := by
  unfold eventClearStep
  split
  · exact ldiff_bitSubset s t.event_set
  · exact land_self_eq s

theorem eventSatisfied_mono {s1 s2 : Nat} (t : RtThread) (h : s1 &&& s2 = s1)
    (hs : eventSatisfied s1 t = true) : eventSatisfied s2 t = true := by
  unfold eventSatisfied at hs ⊢
  by_cases h1 : t.event_info &&& RT_EVENT_FLAG_AND ≠ 0
  · rw [if_pos h1] at hs ⊢
    rw [decide_eq_true_iff] at hs ⊢
    exact bitSubset_trans hs h
  · rw [if_neg h1] at hs ⊢
    by_cases h2 : t.event_info &&& RT_EVENT_FLAG_OR ≠ 0
    · rw [if_pos h2] at hs ⊢
      rw [decide_eq_true_iff] at hs ⊢
      obtain ⟨i, hei, hsi⟩ := (land_ne_zero_iff _ _).mp hs
      refine (land_ne_zero_iff _ _).mpr ⟨i, hei, ?_⟩
      exact (bitSubset_iff s1 s2).mp h i hsi
    · rw [if_neg h2] at hs
      exact absurd hs (by simp)

theorem eventSendScan_set_bitSubset (ts : List RtThread) :
    ∀ s, (eventSendScan s ts).1 &&& s = (eventSendScan s ts).1 := by
  induction ts with
  | nil => intro s; exact land_self_eq s
  | cons t ts ih =>
    intro s
    unfold eventSendScan
    split
    · exact bitSubset_trans (ih (eventClearStep s t)) (eventClearStep_bitSubset s t)
    · exact ih s

/-- Structure of one rt_event_send scan: woken and remaining waiters
partition the queue, every woken waiter satisfied its predicate against
the incoming set (the set can only shrink during the scan), every
remaining waiter fails its predicate even against the final set, and the
final set is the incoming set with every woken CLEAR waiter's bits
removed, applied in wake order. -/
theorem eventSendScan_spec (ts : List RtThread) :
    ∀ s,
      ((eventSendScan s ts).2.1.length + (eventSendScan s ts).2.2.length = ts.length)
      ∧ (∀ t ∈ (eventSendScan s ts).2.1, eventSatisfied s t = true)
      ∧ (∀ t ∈ (eventSendScan s ts).2.2,
          eventSatisfied (eventSendScan s ts).1 t = false)
      ∧ (eventSendScan s ts).1 = (eventSendScan s ts).2.1.foldl eventClearStep s := by
  induction ts with
  | nil =>
    intro s
    refine ⟨rfl, ?_, ?_, rfl⟩ <;> intro t ht <;> exact absurd ht (List.not_mem_nil t)
  | cons t ts ih =>
    intro s
    unfold eventSendScan
    split
    · rename_i hsat
      obtain ⟨ihlen, ihwoken, ihrem, ihfold⟩ := ih (eventClearStep s t)
      try dsimp only
      refine ⟨?_, ?_, ?_, ?_⟩
      · simp only [List.length_cons]
        omega
      · intro u hu
        rcases List.mem_cons.mp hu with h | h
        · exact h ▸ hsat
        · exact eventSatisfied_mono u (eventClearStep_bitSubset s t) (ihwoken u h)
      · exact ihrem
      · simpa using ihfold
    · rename_i hsat
      obtain ⟨ihlen, ihwoken, ihrem, ihfold⟩ := ih s
      try dsimp only
      refine ⟨?_, ihwoken, ?_, ihfold⟩
      · simp only [List.length_cons]
        omega
      · intro u hu
        rcases List.mem_cons.mp hu with h | h
        · subst h
          cases hf : eventSatisfied (eventSendScan s ts).1 u with
          | false => rfl
          | true =>
            have := eventSatisfied_mono u (eventSendScan_set_bitSubset ts s) hf
            exact absurd this (by simpa using hsat)
        · exact ihrem u h

/-- C7: rt_event_send with a nonzero set on an event with suspended
waiters returns OK after ORing the set in; the woken and the still-queued
waiters partition the old queue; the suspended count drops by the number
of woken waiters; every woken waiter satisfied its AND/OR predicate
against the ORed set; every remaining waiter fails its predicate against
the resulting set; and the resulting set is the ORed set minus the bits of
the woken CLEAR waiters, cleared in wake order. -/
theorem rt_event_send_wake_semantics (ev : RtEvent) (s : Nat)
    (hs : s ≠ 0) (hc : ev.suspend_thread_count > 0) :
    (rt_event_send ev s).1 = RT_EOK
    ∧ (rt_event_send ev s).2.2.length
        + (rt_event_send ev s).2.1.suspend_thread.length
        = ev.suspend_thread.length
    ∧ (rt_event_send ev s).2.1.suspend_thread_count
        = ev.suspend_thread_count - (rt_event_send ev s).2.2.length
    ∧ (∀ t ∈ (rt_event_send ev s).2.2, eventSatisfied (ev.set ||| s) t = true)
    ∧ (∀ t ∈ (rt_event_send ev s).2.1.suspend_thread,
        eventSatisfied (rt_event_send ev s).2.1.set t = false)
    ∧ (rt_event_send ev s).2.1.set
        = (rt_event_send ev s).2.2.foldl eventClearStep (ev.set ||| s) := by
  obtain ⟨hlen, hwoken, hrem, hfold⟩ := eventSendScan_spec ev.suspend_thread (ev.set ||| s)
  unfold rt_event_send
  rw [if_neg hs, if_pos hc]
  exact ⟨rfl, hlen, rfl, hwoken, hrem, hfold⟩

/-- Witness for rt_event_send_wake_semantics: sending bits 1 and 2 to the
concrete event wakes the AND-CLEAR waiter (which clears its bits) and
leaves the OR waiter on bit 3 suspended. -/
theorem rt_event_send_wake_semantics_witness :
    (rt_event_send evConcrete 3).1 = RT_EOK
    ∧ (rt_event_send evConcrete 3).2.2.length
        + (rt_event_send evConcrete 3).2.1.suspend_thread.length
        = evConcrete.suspend_thread.length
    ∧ (rt_event_send evConcrete 3).2.1.suspend_thread_count
        = evConcrete.suspend_thread_count - (rt_event_send evConcrete 3).2.2.length
    ∧ (∀ t ∈ (rt_event_send evConcrete 3).2.2,
        eventSatisfied (evConcrete.set ||| 3) t = true)
    ∧ (∀ t ∈ (rt_event_send evConcrete 3).2.1.suspend_thread,
        eventSatisfied (rt_event_send evConcrete 3).2.1.set t = false)
    ∧ (rt_event_send evConcrete 3).2.1.set
        = (rt_event_send evConcrete 3).2.2.foldl eventClearStep (evConcrete.set ||| 3) :=
  rt_event_send_wake_semantics evConcrete 3 (by decide) (by decide)

/-- C8: rt_mb_send returns FULL exactly when entry equals size, leaving
the mailbox untouched in that case; otherwise it returns OK after storing
the value at in_offset, advancing in_offset modulo size, incrementing
entry, and waking the head waiter exactly when the suspended count is
positive; and on a capacity-2 mailbox two sends succeed, a third returns
FULL, and after one receive (which yields the first mail) a further send
succeeds. -/
theorem rt_mb_send_full_and_ring_behavior (mb : RtMailbox) (v : Nat) :
    ((mb.entry = mb.size → rt_mb_send mb v = (-RT_EFULL, mb, false))
     ∧ (mb.entry ≠ mb.size →
        (rt_mb_send mb v).1 = RT_EOK
        ∧ (rt_mb_send mb v).2.1.msg_pool = mb.msg_pool.set mb.in_offset v
        ∧ (rt_mb_send mb v).2.1.in_offset = (mb.in_offset + 1) % mb.size
        ∧ (rt_mb_send mb v).2.1.out_offset = mb.out_offset
        ∧ (rt_mb_send mb v).2.1.entry = mb.entry + 1
        ∧ (rt_mb_send mb v).2.2 = decide (mb.suspend_thread_count > 0)
        ∧ (rt_mb_send mb v).2.1.suspend_thread_count
            = mb.suspend_thread_count - (if mb.suspend_thread_count > 0 then 1 else 0)))
    ∧ ((rt_mb_send mbCap2 10).1 = RT_EOK
       ∧ (rt_mb_send mbCap2one 11).1 = RT_EOK
       ∧ (rt_mb_send mbCap2two 12).1 = -RT_EFULL
       ∧ (rt_mb_send mbCap2two 12).2.1 = mbCap2two
       ∧ mbRecvVal (rt_mb_recv mbCap2two thrP5 0) = some 10
       ∧ (rt_mb_send mbCap2afterRecv 12).1 = RT_EOK) := by
  refine ⟨⟨fun h => ?_, fun h => ?_⟩, ?_⟩
  · simp [rt_mb_send, h]
  · unfold rt_mb_send
    rw [if_neg h]
    try dsimp only
    by_cases hc : mb.suspend_thread_count > 0
    · rw [if_pos hc]
      refine ⟨rfl, rfl, rfl, rfl, rfl, ?_, ?_⟩ <;> simp [hc]
    · rw [if_neg hc]
      refine ⟨rfl, rfl, rfl, rfl, rfl, ?_, ?_⟩ <;> simp [hc]
  · refine ⟨?_, ?_, ?_, ?_, ?_, ?_⟩ <;> decide

/-- Witness for rt_mb_send_full_and_ring_behavior at the concrete
capacity-2 mailbox (non-full path) and the full mailbox (FULL path). -/
theorem rt_mb_send_full_and_ring_behavior_witness :
    (rt_mb_send mbCap2 10).1 = RT_EOK
    ∧ rt_mb_send mbCap2two 12 = (-RT_EFULL, mbCap2two, false) :=
  ⟨((rt_mb_send_full_and_ring_behavior mbCap2 10).1.2 (by decide)).1,
   (rt_mb_send_full_and_ring_behavior mbCap2two 12).1.1 (by decide)⟩

/-! Helper lemmas for the message-queue partition invariant. -/

theorem foldl_cons_map (f : Nat → MqMsg) :
    ∀ (l : List Nat) (acc : List MqMsg),
      l.foldl (fun a x => f x :: a) acc = (l.map f).reverse ++ acc := by
  intro l
  induction l with
  | nil => intro acc; simp
  | cons x l ih =>
    intro acc
    simp only [List.foldl_cons, ih, List.map_cons, List.reverse_cons,
      List.append_assoc, List.singleton_append]

theorem mq_init_establishes (flag msz cap : Nat) : MqInv (rt_mq_init flag msz cap) := by
  refine ⟨rfl, ?_, ?_⟩
  · simp [rt_mq_init, foldl_cons_map]
  · simp only [rt_mq_init, foldl_cons_map, List.append_nil, List.map_reverse,
      List.map_map, List.nodup_reverse]
    have h : ∀ l : List Nat,
        l.map ((fun m => MqMsg.addr m) ∘ fun i => (⟨i, []⟩ : MqMsg)) = l := by
      intro l
      induction l with
      | nil => rfl
      | cons x l ih => simp [ih]
    rw [h (List.range cap)]
    exact List.nodup_range cap

theorem mq_send_preserves (mq : RtMessageQueue) (buf : List Nat) (h : MqInv mq) :
    MqInv (rt_mq_send mq buf).2
    ∧ (mqAddrs (rt_mq_send mq buf).2).Perm (mqAddrs mq) := by
  obtain ⟨h1, h2, h3⟩ := h
  unfold rt_mq_send
  by_cases hb : buf.length > mq.msg_size
  · rw [if_pos hb]
    exact ⟨⟨h1, h2, h3⟩, List.Perm.refl _⟩
  · rw [if_neg hb]
    cases hf : mq.msg_queue_free with
    | nil => exact ⟨⟨h1, h2, h3⟩, List.Perm.refl _⟩
    | cons m rest =>
      try dsimp only
      have hperm :
          ((rest ++ (mq.msg_queue ++ [{ m with payload := buf }])).map MqMsg.addr).Perm
            (mqAddrs mq) := by
        rw [mqAddrs, hf]
        simp only [List.map_append, List.map_cons, List.cons_append]
        rw [← List.append_assoc]
        exact List.perm_append_comm
      have hinv1 : mq.entry + 1 = (mq.msg_queue ++ [{ m with payload := buf }]).length := by
        simp [h1]
      have hinv2 : mq.entry + 1 + rest.length = mq.max_msgs := by
        rw [hf] at h2
        simp only [List.length_cons] at h2
        omega
      have hnodup :
          ((rest ++ (mq.msg_queue ++ [{ m with payload := buf }])).map MqMsg.addr).Nodup :=
        hperm.nodup_iff.mpr h3
      constructor
      · split_ifs with hc
        · exact ⟨hinv1, hinv2, hnodup⟩
        · exact ⟨hinv1, hinv2, hnodup⟩
      · split_ifs with hc
        · exact hperm
        · exact hperm

theorem mq_urgent_preserves (mq : RtMessageQueue) (buf : List Nat) (h : MqInv mq) :
    MqInv (rt_mq_urgent mq buf).2
    ∧ (mqAddrs (rt_mq_urgent mq buf).2).Perm (mqAddrs mq) := by
  obtain ⟨h1, h2, h3⟩ := h
  unfold rt_mq_urgent
  by_cases hb : buf.length > mq.msg_size
  · rw [if_pos hb]
    exact ⟨⟨h1, h2, h3⟩, List.Perm.refl _⟩
  · rw [if_neg hb]
    cases hf : mq.msg_queue_free with
    | nil => exact ⟨⟨h1, h2, h3⟩, List.Perm.refl _⟩
    | cons m rest =>
      try dsimp only
      have hperm :
          ((rest ++ ({ m with payload := buf } :: mq.msg_queue)).map MqMsg.addr).Perm
            (mqAddrs mq) := by
        rw [mqAddrs, hf]
        simp only [List.map_append, List.map_cons, List.cons_append]
        exact List.perm_middle
      have hinv1 : mq.entry + 1 = ({ m with payload := buf } :: mq.msg_queue).length := by
        simp [h1]
      have hinv2 : mq.entry + 1 + rest.length = mq.max_msgs := by
        rw [hf] at h2
        simp only [List.length_cons] at h2
        omega
      have hnodup :
          ((rest ++ ({ m with payload := buf } :: mq.msg_queue)).map MqMsg.addr).Nodup :=
        hperm.nodup_iff.mpr h3
      constructor
      · split_ifs with hc
        · exact ⟨hinv1, hinv2, hnodup⟩
        · exact ⟨hinv1, hinv2, hnodup⟩
      · split_ifs with hc
        · exact hperm
        · exact hperm

theorem mq_recv_preserves (mq : RtMessageQueue) (t : RtThread) (sz : Nat)
    (timeout : Int) (h : MqInv mq) :
    MqInv (mqRecvState (rt_mq_recv mq t sz timeout))
    ∧ (mqAddrs (mqRecvState (rt_mq_recv mq t sz timeout))).Perm (mqAddrs mq) := by
  obtain ⟨h1, h2, h3⟩ := h
  unfold rt_mq_recv
  by_cases he : mq.entry = 0
  · rw [if_pos he]
    by_cases ht : timeout = 0
    · rw [if_pos ht]
      exact ⟨⟨h1, h2, h3⟩, List.Perm.refl _⟩
    · rw [if_neg ht]
      exact ⟨⟨h1, h2, h3⟩, List.Perm.refl _⟩
  · rw [if_neg he]
    cases hq : mq.msg_queue with
    | nil => exact ⟨⟨h1, h2, h3⟩, List.Perm.refl _⟩
    | cons m rest =>
      try dsimp only
      rw [hq] at h1
      simp only [List.length_cons] at h1
      have hperm :
          (((m :: mq.msg_queue_free) ++ rest).map MqMsg.addr).Perm (mqAddrs mq) := by
        rw [mqAddrs, hq]
        simp only [List.map_append, List.map_cons, List.cons_append]
        exact List.perm_middle.symm
      refine ⟨⟨?_, ?_, hperm.nodup_iff.mpr h3⟩, hperm⟩
      · simp only [mqRecvState]
        omega
      · simp only [mqRecvState, List.length_cons]
        omega

/-- C9: the message-queue partition invariant: entry equals the FIFO
length, entry plus the free-stack length equals the capacity max_msgs
fixed at initialization, and no cell is linked twice across the two lists
(with the cell-address multiset conserved, every cell lives in exactly one
of them); rt_mq_init establishes it and rt_mq_send, rt_mq_urgent and
rt_mq_recv preserve it. -/
theorem rt_mq_free_fifo_partition_invariant :
    (∀ flag msz cap, MqInv (rt_mq_init flag msz cap))
    ∧ (∀ mq buf, MqInv mq →
        MqInv (rt_mq_send mq buf).2
        ∧ (mqAddrs (rt_mq_send mq buf).2).Perm (mqAddrs mq))
    ∧ (∀ mq buf, MqInv mq →
        MqInv (rt_mq_urgent mq buf).2
        ∧ (mqAddrs (rt_mq_urgent mq buf).2).Perm (mqAddrs mq))
    ∧ (∀ mq t sz timeout, MqInv mq →
        MqInv (mqRecvState (rt_mq_recv mq t sz timeout))
        ∧ (mqAddrs (mqRecvState (rt_mq_recv mq t sz timeout))).Perm (mqAddrs mq)) :=
  ⟨mq_init_establishes, mq_send_preserves, mq_urgent_preserves, mq_recv_preserves⟩

/-- Witness for the message-queue invariant on a concrete capacity-2
queue: it holds after initialization, after a send, and after a send
followed by a receive. -/
theorem rt_mq_free_fifo_partition_invariant_witness :
    MqInv mqCap2
    ∧ MqInv (rt_mq_send mqCap2 [1, 2]).2
    ∧ MqInv (mqRecvState (rt_mq_recv (rt_mq_send mqCap2 [1, 2]).2 thrP5 4 0)) :=
  ⟨rt_mq_free_fifo_partition_invariant.1 RT_IPC_FLAG_FIFO 4 2,
   (rt_mq_free_fifo_partition_invariant.2.1 mqCap2 [1, 2] (by decide)).1,
   (rt_mq_free_fifo_partition_invariant.2.2.2 (rt_mq_send mqCap2 [1, 2]).2 thrP5 4 0
     (by decide)).1⟩

end RTT
